import Mathlib

/-!
# Versioned composite keys of the debug resources (`main.go`)

A shallow embedding of `InitDebugResource` and `generateRemoteProductSelector`:
the `Factory` / `Item` records, the three meta valuers and the collection
function of the `Items` field, together with the fragment of `fmt.Sprintf`
they call.  The persistence layer (gorm) is external; it enters as the pair of
read functions carried by a `DB` handle.
-/

namespace QorExample

/-! ## Records -/

/-- The record `gorm.Model`; `ID` is a Go `uint`, instants are kept as integers. -/
structure Model where
  ID : Nat
  CreatedAt : Int
  UpdatedAt : Int
  DeletedAt : Option Int
deriving DecidableEq, Repr

/-- The record `publish2.Version` embedded in both resources. -/
structure Version where
  VersionName : String
  VersionPriority : String
deriving DecidableEq, Repr

/-- The accessor `GetVersionName` of `publish2.Version`: the version name
attached to the in-memory instance. -/
def Version.GetVersionName (version : Version) : String :=
  version.VersionName

/-- The record `Item` (main.go 177-184). -/
structure Item extends Model, Version where
  Name : String
  IDVersion : String
  CompositePrimaryKey : String
deriving DecidableEq, Repr

/-- The record `sorting.SortableCollection`. -/
structure SortableCollection where
  PrimaryField : String
  PrimaryKeys : List String
deriving DecidableEq, Repr

/-- The record `Factory` (main.go 168-175). -/
structure Factory extends Model, Version where
  Name : String
  Items : List Item
  ItemsSorter : SortableCollection
deriving DecidableEq, Repr

/-! ## The fragment of `fmt` used by the program -/

/-- Operands handed to `Sprintf`: a `uint` or a `string`. -/
inductive Arg where
  | uint (n : Nat)
  | str (s : String)
deriving DecidableEq, Repr

/-- The digit table `ldigits` of `fmt`. -/
def ldigits : List Char :=
  "0123456789abcdefx".data

/-- The decimal digit loop of `fmt` (`fmtInteger`, base 10, no flags): while
`u >= 10` the byte `'0' + u - next*10` with `next = u / 10` is stored in front
of the buffer and `u` becomes `next`; the last digit is `ldigits[u]`. -/
def fmtInteger (u : Nat) (buf : List Char) : List Char :=
  if 10 ≤ u then fmtInteger (u / 10) (Char.ofNat (48 + u - u / 10 * 10) :: buf)
  else ldigits.getD u '0' :: buf
termination_by u
decreasing_by omega

/-- The Go type name printed in a bad-verb or extra-operand report. -/
def Arg.typeName : Arg → List Char
  | .uint _ => "uint".data
  | .str _ => "string".data

/-- The default (`%v`) rendering of an operand. -/
def Arg.printValue : Arg → List Char
  | .uint n => fmtInteger n []
  | .str s => s.data

/-- The report `%!verb(type=value)` for a verb the operand does not accept. -/
def badVerb (verb : Char) (a : Arg) : List Char :=
  '%' :: '!' :: verb :: '(' :: (a.typeName ++ '=' :: (a.printValue ++ [')']))

/-- One operand under one verb.  The verbs of the program are `d`, `s` and
`v`; any other verb is rendered as a bad verb, flags and widths are not part
of the fragment. -/
def printArg (a : Arg) (verb : Char) : List Char :=
  match a with
  | .uint n => if verb = 'd' ∨ verb = 'v' then fmtInteger n [] else badVerb verb a
  | .str s => if verb = 's' ∨ verb = 'v' then s.data else badVerb verb a

/-- The tail `%!(EXTRA type=value, ...)` for operands left over. -/
def extraArgs : List Arg → List Char
  | [] => []
  | a :: rest =>
    "%!(EXTRA ".data ++ (a.typeName ++ '=' :: a.printValue) ++
      (rest.map (fun b => ',' :: ' ' :: (b.typeName ++ '=' :: b.printValue))).flatten ++ [')']

/-- The scanning loop of `doPrintf`: literal text is copied, `%%` is a percent
sign, `%verb` consumes the next operand, a missing operand is reported. -/
def doPrintf : List Char → List Arg → List Char
  | [], args => extraArgs args
  | [c], args =>
    if c = '%' then "%!(NOVERB)".data ++ extraArgs args else c :: extraArgs args
  | c :: verb :: rest, args =>
    if c = '%' then
      if verb = '%' then '%' :: doPrintf rest args
      else
        match args with
        | [] => '%' :: '!' :: verb :: "(MISSING)".data ++ doPrintf rest []
        | a :: args => printArg a verb ++ doPrintf rest args
    else c :: doPrintf (verb :: rest) args

/-- The function `fmt.Sprintf` on the fragment above. -/
def Sprintf (format : String) (args : List Arg) : String :=
  String.mk (doPrintf format.data args)

/-! ## The persistence handle and the request context -/

/-- An error reported by the persistence layer. -/
structure DBError where
  msg : String
deriving DecidableEq, Repr

/-- A read issued against the persistence layer. -/
inductive Query where
  | find (values : List (String × String)) (preloads : List String) (out : Factory)
  | related (values : List (String × String)) (model : Factory) (name : String)
deriving DecidableEq, Repr

/-- A `*gorm.DB` handle: the settings and preloads chained so far and the two
reads of the external store.  A read gives what it wrote into the destination
together with the `Error` of the handle it returns (`none` is `nil`). -/
structure DB where
  values : List (String × String)
  preloads : List String
  runFind : List (String × String) → List String → Factory → Factory × Option DBError
  runRelated : List (String × String) → Factory → String → List Item × Option DBError

/-- The method `Set`: chains a setting. -/
def DB.Set (db : DB) (name value : String) : DB :=
  { db with values := (name, value) :: db.values }

/-- The method `Preload`: chains an association to load with the record. -/
def DB.Preload (db : DB) (column : String) : DB :=
  { db with preloads := db.preloads ++ [column] }

/-- The method `Find` on a `*Factory` destination: the record behind the
pointer after the read, and the `Error` of the returned handle. -/
def DB.Find (db : DB) (out : Factory) : Factory × Option DBError :=
  db.runFind db.values db.preloads out

/-- The chain `Model(c).Related(&items, name)` on an item list destination:
the rows in `items` after the read, and the `Error` of the returned handle. -/
def DB.ModelRelated (db : DB) (c : Factory) (name : String) : List Item × Option DBError :=
  db.runRelated db.values c name

/-- The part of `qor.Context` a valuer can see. -/
structure Context where
  ResourceID : String
  Roles : List String
  DB : QorExample.DB

/-- The method `GetDB` of the context. -/
def Context.GetDB (ctx : Context) : QorExample.DB :=
  ctx.DB

/-- The constants taken from the libraries. -/
structure Consts where
  /-- The constant `resource.CompositePrimaryKeySeparator`. -/
  CompositePrimaryKeySeparator : String
  /-- The constant `publish2.VersionNameMode`. -/
  VersionNameMode : String

/-- Dynamic values (`interface{}`) that reach or leave a valuer.  Pointers are
the allocated records the framework passes. -/
inductive Value where
  | factoryPtr (p : Factory)
  | itemPtr (p : Item)
  | itemSlice (l : List Item)
  | str (s : String)
  | error (e : DBError)
  | nil
deriving DecidableEq, Repr

/-! ## `InitDebugResource` -/

/-- The loop of main.go 138-141: `p` is a copy of the ranged element, the key
is written to the copy and the copy is appended to `prods`. -/
def stampLoop (k : Consts) : List Item → List Item → List Item
  | [], prods => prods
  | p :: rest, prods =>
    let key := Sprintf "%d%s%s"
      [.uint p.ID, .str k.CompositePrimaryKeySeparator, .str p.GetVersionName]
    let p : Item := { p with CompositePrimaryKey := key }
    stampLoop k rest (prods ++ [p])

/-- What a call of the `Items` valuer leaves behind: the returned value, the
record behind the `*Factory` argument after the call, the reads issued. -/
structure ValuerResult where
  ret : Value
  coll : Factory
  queries : List Query
deriving DecidableEq, Repr

/-- The `Valuer` of the meta `Items` (main.go 134-149).  `none` is the panic
of the unchecked type assertion.  The three print statements write to standard
output only. -/
def ItemsValuer (k : Consts) (value : Value) (ctx : Context) : Option ValuerResult :=
  match value with
  | .factoryPtr coll =>
    let db := (ctx.GetDB.Set k.VersionNameMode "").Preload "Items"
    let r := db.Find coll
    match r.2 with
    | none => some ⟨.itemSlice (stampLoop k r.1.Items []), r.1, [.find db.values db.preloads coll]⟩
    | some _ => some ⟨.str "", r.1, [.find db.values db.preloads coll]⟩
  | _ => none

/-- The loop of main.go 157-159. -/
def collectLoop : List Item → List (List String) → List (List String)
  | [], results => results
  | product :: rest, results =>
    collectLoop rest (results ++
      [[Sprintf "%v---%v" [.uint product.ID, .str product.GetVersionName], product.Name]])

/-- The `Collection` of the select-many configuration (main.go 152-162): the
pairs and the reads issued.  The error of the read is not inspected. -/
def ItemsCollection (value : Value) (ctx : Context) : List (List String) × List Query :=
  match value with
  | .factoryPtr c =>
    let r := ctx.GetDB.ModelRelated c "Items"
    (collectLoop r.1 [], [.related ctx.GetDB.values c "Items"])
  | _ => ([], [])

/-! ## `generateRemoteProductSelector` -/

/-- The `Valuer` of the meta `Name` of `ItemSelector` (main.go 191-196). -/
def ItemSelectorNameValuer (value : Value) (_ctx : Context) : Value :=
  match value with
  | .itemPtr r => .str r.Name
  | _ => .str ""

/-- The `Valuer` of the meta `CompositePrimaryKey` of `ItemSelector`
(main.go 203-208). -/
def ItemSelectorCompositePrimaryKeyValuer (k : Consts) (value : Value) (_ctx : Context) : Value :=
  match value with
  | .itemPtr r =>
    .str (Sprintf "%d%s%s" [.uint r.ID, .str k.CompositePrimaryKeySeparator, .str r.GetVersionName])
  | _ => .str ""

/-- The handler of the default scope (main.go 214-216). -/
def defaultScopeHandler (db : DB) (_ctx : Context) : DB :=
  db

/-! ## Reading the code: derived notions used in the statements -/

/-- The read the `Items` valuer issues for `coll` (main.go 136): the record
behind the pointer after the read, and the error of the read. -/
def itemsLoad (k : Consts) (ctx : Context) (coll : Factory) : Factory × Option DBError :=
  ((ctx.GetDB.Set k.VersionNameMode "").Preload "Items").Find coll

/-- The read the `Collection` issues for `c` (main.go 155): the rows left in
`items`, and the error of the read. -/
def relatedRead (ctx : Context) (c : Factory) : List Item × Option DBError :=
  ctx.GetDB.ModelRelated c "Items"

/-- The copy appended by one turn of the loop of main.go 138-141. -/
def stamped (k : Consts) (p : Item) : Item :=
  { p with CompositePrimaryKey :=
      Sprintf "%d%s%s" [.uint p.ID, .str k.CompositePrimaryKeySeparator, .str p.GetVersionName] }

/-- A version name contains the separator: the separator occurs in it as a
block of consecutive characters. -/
def containsSeparator (sep name : String) : Prop :=
  sep.data <:+: name.data

instance (sep name : String) : Decidable (containsSeparator sep name) :=
  inferInstanceAs (Decidable (sep.data <:+: name.data))

/-- A separator that cannot be confused with the identity: it is not empty and
its first character is not a decimal digit. -/
def separatorOk (sep : String) : Bool :=
  match sep.data with
  | [] => false
  | c :: _ => !c.isDigit

/-- The value of a run of decimal digits. -/
def parseUint (ds : List Char) : Nat :=
  ds.foldl (fun acc c => acc * 10 + (c.toNat - 48)) 0

/-- A decoder for tokens (the program has none; this is the `decode` of the
specification): the leading digits are the identity, the separator must
follow, the remainder is the version name. -/
def decode (sep token : String) : Option (Nat × String) :=
  let ds := token.data.takeWhile Char.isDigit
  let rest := token.data.dropWhile Char.isDigit
  if ds = [] then none
  else if sep.data.isPrefixOf rest then
    some (parseUint ds, String.mk (rest.drop sep.data.length))
  else none

/-! ## Concrete records and stores used to instantiate the statements -/

/-- An item row with the given identity, version name and name. -/
def mkItem (id : Nat) (version name : String) : Item :=
  { ID := id, CreatedAt := 0, UpdatedAt := 0, DeletedAt := none,
    VersionName := version, VersionPriority := "", Name := name, IDVersion := "",
    CompositePrimaryKey := "" }

/-- A parent record as it is before its items are loaded. -/
def demoFactory : Factory :=
  { ID := 1, CreatedAt := 0, UpdatedAt := 0, DeletedAt := none,
    VersionName := "", VersionPriority := "", Name := "plant", Items := [],
    ItemsSorter := ⟨"", []⟩ }

/-- A store in which every parent is linked to exactly the rows `rows`. -/
def storeWith (rows : List Item) : DB :=
  { values := [], preloads := [],
    runFind := fun _ _ out => ({ out with Items := rows }, none),
    runRelated := fun _ _ _ => (rows, none) }

/-- A store whose reads fail and leave the destination as it was. -/
def failingStore : DB :=
  { values := [], preloads := [],
    runFind := fun _ _ out => (out, some ⟨"store unavailable"⟩),
    runRelated := fun _ _ _ => ([], some ⟨"store unavailable"⟩) }

/-- A request context over the given handle. -/
def ctxOf (db : DB) : Context :=
  { ResourceID := "", Roles := [], DB := db }

/-- The constants with the separator `::` of the specification. -/
def specConsts : Consts :=
  { CompositePrimaryKeySeparator := "::", VersionNameMode := "publish:version:name:mode" }

/-! ## Lemmas on the `fmt` fragment -/

theorem Sprintf_key (n : Nat) (a b : String) :
    Sprintf "%d%s%s" [.uint n, .str a, .str b] =
      String.mk (fmtInteger n [] ++ (a.data ++ b.data)) := by
  simp [Sprintf, doPrintf, printArg, extraArgs]

theorem Sprintf_pair (n : Nat) (b : String) :
    Sprintf "%v---%v" [.uint n, .str b] =
      String.mk (fmtInteger n [] ++ ('-' :: '-' :: '-' :: b.data)) := by
  simp [Sprintf, doPrintf, printArg, extraArgs]

theorem digitChar_eq : ∀ d, d < 10 → Nat.digitChar d = Char.ofNat (48 + d) := by decide

theorem ldigits_eq : ∀ d, d < 10 → ldigits.getD d '0' = Char.ofNat (48 + d) := by decide

theorem ofNat_isDigit : ∀ d, d < 10 → (Char.ofNat (48 + d)).isDigit = true := by decide

theorem ofNat_value : ∀ d, d < 10 → (Char.ofNat (48 + d)).toNat - 48 = d := by decide

/-- The digit loop with the stored byte written as a remainder. -/
theorem fmtInteger_unfold (u : Nat) (buf : List Char) :
    fmtInteger u buf =
      if 10 ≤ u then fmtInteger (u / 10) (Char.ofNat (48 + u % 10) :: buf)
      else Char.ofNat (48 + u) :: buf := by
  rw [fmtInteger]
  by_cases h10 : 10 ≤ u
  · have : 48 + u - u / 10 * 10 = 48 + u % 10 := by omega
    rw [if_pos h10, if_pos h10, this]
  · rw [if_neg h10, if_neg h10, ldigits_eq u (by omega)]

theorem fmtInteger_eq_toDigitsCore (fuel : Nat) : ∀ (u : Nat) (buf : List Char), u < fuel →
    fmtInteger u buf = Nat.toDigitsCore 10 fuel u buf := by
  induction fuel with
  | zero => intro u buf h; omega
  | succ f ih =>
    intro u buf h
    rw [fmtInteger_unfold, Nat.toDigitsCore]
    rw [digitChar_eq (u % 10) (Nat.mod_lt _ (by decide))]
    by_cases h10 : 10 ≤ u
    · have hne : ¬ u / 10 = 0 := by omega
      rw [if_pos h10]
      simp only [hne, if_false]
      exact ih _ _ (by omega)
    · have hz : u / 10 = 0 := by omega
      rw [if_neg h10]
      simp only [hz, if_true]
      have : u % 10 = u := by omega
      rw [this]

/-- The digit loop agrees with the decimal rendering of the standard library. -/
theorem fmtInteger_eq_toDigits (u : Nat) : fmtInteger u [] = Nat.toDigits 10 u :=
  fmtInteger_eq_toDigitsCore (u + 1) u [] (by omega)

theorem fmtInteger_append (u : Nat) : ∀ buf, fmtInteger u buf = fmtInteger u [] ++ buf := by
  induction u using Nat.strong_induction_on with
  | _ u ih =>
    intro buf
    by_cases h10 : 10 ≤ u
    · rw [fmtInteger_unfold, if_pos h10, ih (u / 10) (by omega)]
      conv_rhs => rw [fmtInteger_unfold, if_pos h10, ih (u / 10) (by omega)]
      simp
    · rw [fmtInteger_unfold, if_neg h10]
      conv_rhs => rw [fmtInteger_unfold, if_neg h10]
      simp

theorem fmtInteger_step (u : Nat) (h : 10 ≤ u) :
    fmtInteger u [] = fmtInteger (u / 10) [] ++ [Char.ofNat (48 + u % 10)] := by
  rw [fmtInteger_unfold, if_pos h, fmtInteger_append]

theorem fmtInteger_small (u : Nat) (h : ¬ 10 ≤ u) :
    fmtInteger u [] = [Char.ofNat (48 + u)] := by
  rw [fmtInteger_unfold, if_neg h]

theorem fmtInteger_isDigit (u : Nat) : ∀ c ∈ fmtInteger u [], c.isDigit = true := by
  induction u using Nat.strong_induction_on with
  | _ u ih =>
    intro c hc
    by_cases h10 : 10 ≤ u
    · rw [fmtInteger_step u h10, List.mem_append, List.mem_singleton] at hc
      rcases hc with hc | hc
      · exact ih (u / 10) (by omega) c hc
      · rw [hc]; exact ofNat_isDigit _ (Nat.mod_lt _ (by decide))
    · rw [fmtInteger_small u h10, List.mem_singleton] at hc
      rw [hc]; exact ofNat_isDigit _ (by omega)

theorem fmtInteger_ne_nil (u : Nat) : fmtInteger u [] ≠ [] := by
  by_cases h10 : 10 ≤ u
  · rw [fmtInteger_step u h10]; simp
  · rw [fmtInteger_small u h10]; simp

theorem parseUint_fmtInteger (u : Nat) : parseUint (fmtInteger u []) = u := by
  induction u using Nat.strong_induction_on with
  | _ u ih =>
    by_cases h10 : 10 ≤ u
    · have hrec := ih (u / 10) (by omega)
      rw [fmtInteger_step u h10]
      unfold parseUint at hrec ⊢
      rw [List.foldl_append, hrec]
      simp only [List.foldl_cons, List.foldl_nil]
      rw [ofNat_value _ (Nat.mod_lt _ (by decide))]
      omega
    · rw [fmtInteger_small u h10]
      simp only [parseUint, List.foldl_cons, List.foldl_nil]
      rw [ofNat_value _ (by omega)]
      omega

theorem takeWhile_digits (ds : List Char) (c : Char) (rest : List Char)
    (hds : ∀ x ∈ ds, x.isDigit = true) (hc : c.isDigit = false) :
    (ds ++ c :: rest).takeWhile Char.isDigit = ds ∧
    (ds ++ c :: rest).dropWhile Char.isDigit = c :: rest := by
  induction ds with
  | nil => simp [List.takeWhile, List.dropWhile, hc]
  | cons d ds ih =>
    have hd : d.isDigit = true := hds d (List.mem_cons_self _ _)
    have := ih (fun x hx => hds x (List.mem_cons_of_mem _ hx))
    simp [List.takeWhile, List.dropWhile, hd, this]

theorem separatorOk_cons (sep : String) (h : separatorOk sep = true) :
    ∃ c t, sep.data = c :: t ∧ c.isDigit = false := by
  unfold separatorOk at h
  cases hs : sep.data with
  | nil => rw [hs] at h; simp at h
  | cons c t =>
    rw [hs] at h
    exact ⟨c, t, rfl, by simpa using h⟩

/-- The characters of a token determine the identity and the version name, as
soon as the separator starts with a character that is not a digit. -/
theorem key_chars_inj (sep : String) (hsep : separatorOk sep = true) (i j : Nat)
    (v w : List Char)
    (h : fmtInteger i [] ++ (sep.data ++ v) = fmtInteger j [] ++ (sep.data ++ w)) :
    i = j ∧ v = w := by
  obtain ⟨c, t, hs, hc⟩ := separatorOk_cons sep hsep
  rw [hs] at h
  have h1 := (takeWhile_digits (fmtInteger i []) c (t ++ v) (fmtInteger_isDigit i) hc).1
  have h2 := (takeWhile_digits (fmtInteger j []) c (t ++ w) (fmtInteger_isDigit j) hc).1
  simp only [List.cons_append] at h
  rw [h, h2] at h1
  have hij : i = j := by
    have := congrArg parseUint h1
    rw [parseUint_fmtInteger, parseUint_fmtInteger] at this
    exact this.symm
  subst hij
  have h3 := List.append_cancel_left h
  simp only [List.cons.injEq, true_and] at h3
  exact ⟨rfl, List.append_cancel_left h3⟩

/-- The decoder inverts the token construction. -/
theorem decode_key (sep : String) (hsep : separatorOk sep = true) (i : Nat) (v : String) :
    decode sep (Sprintf "%d%s%s" [.uint i, .str sep, .str v]) = some (i, v) := by
  obtain ⟨c, t, hs, hc⟩ := separatorOk_cons sep hsep
  have htw := takeWhile_digits (fmtInteger i []) c (t ++ v.data) (fmtInteger_isDigit i) hc
  rw [Sprintf_key]
  unfold decode
  simp only [hs, List.cons_append, htw.1, htw.2, fmtInteger_ne_nil, if_false]
  have hpre : (c :: t).isPrefixOf (c :: (t ++ v.data)) = true := by
    rw [List.isPrefixOf_iff_prefix, ← List.cons_append]
    exact List.prefix_append _ _
  rw [if_pos hpre, parseUint_fmtInteger]
  have hdrop : (c :: (t ++ v.data)).drop (c :: t).length = v.data := by
    rw [← List.cons_append]; exact List.drop_left _ _
  rw [hdrop]

/-- The token as a string: decimal identity, separator, version name. -/
theorem Sprintf_key_repr (n : Nat) (a b : String) :
    Sprintf "%d%s%s" [.uint n, .str a, .str b] = Nat.repr n ++ a ++ b := by
  rw [Sprintf_key, fmtInteger_eq_toDigits]
  apply String.ext
  simp [Nat.repr, List.asString]

/-- The value of a collection entry as a string. -/
theorem Sprintf_pair_repr (n : Nat) (b : String) :
    Sprintf "%v---%v" [.uint n, .str b] = Nat.repr n ++ "---" ++ b := by
  rw [Sprintf_pair, fmtInteger_eq_toDigits]
  apply String.ext
  simp [Nat.repr, List.asString]

/-! ## Lemmas on the valuers -/

theorem stampLoop_eq (k : Consts) : ∀ (items prods : List Item),
    stampLoop k items prods = prods ++ items.map (stamped k) := by
  intro items
  induction items with
  | nil => intro prods; simp [stampLoop]
  | cons p rest ih =>
    intro prods
    rw [stampLoop, ih]
    simp [stamped]

theorem collectLoop_eq : ∀ (items : List Item) (results : List (List String)),
    collectLoop items results = results ++ items.map (fun product =>
      [Sprintf "%v---%v" [.uint product.ID, .str product.GetVersionName], product.Name]) := by
  intro items
  induction items with
  | nil => intro results; simp [collectLoop]
  | cons p rest ih =>
    intro results
    rw [collectLoop, ih]
    simp

/-- The `Items` valuer after a successful load. -/
theorem ItemsValuer_loaded (k : Consts) (ctx : Context) (coll : Factory)
    (h : (itemsLoad k ctx coll).2 = none) :
    ItemsValuer k (.factoryPtr coll) ctx =
      some ⟨.itemSlice ((itemsLoad k ctx coll).1.Items.map (stamped k)), (itemsLoad k ctx coll).1,
        [.find ((k.VersionNameMode, "") :: ctx.DB.values) (ctx.DB.preloads ++ ["Items"]) coll]⟩ := by
  simp only [itemsLoad] at h
  simp only [ItemsValuer, h, itemsLoad, stampLoop_eq, List.nil_append]
  rfl

/-- The `Items` valuer after a failed load. -/
theorem ItemsValuer_failed (k : Consts) (ctx : Context) (coll : Factory) (e : DBError)
    (h : (itemsLoad k ctx coll).2 = some e) :
    ItemsValuer k (.factoryPtr coll) ctx =
      some ⟨.str "", (itemsLoad k ctx coll).1,
        [.find ((k.VersionNameMode, "") :: ctx.DB.values) (ctx.DB.preloads ++ ["Items"]) coll]⟩ := by
  simp only [itemsLoad] at h
  simp only [ItemsValuer, h, itemsLoad]
  rfl

/-- The key returned by the selector valuer for a row. -/
theorem selector_key (k : Consts) (ctx : Context) (r : Item) :
    ItemSelectorCompositePrimaryKeyValuer k (.itemPtr r) ctx =
      .str (Sprintf "%d%s%s"
        [.uint r.ID, .str k.CompositePrimaryKeySeparator, .str r.GetVersionName]) :=
  rfl

/-- Two rows with the same token have the same identity and version name. -/
theorem token_inj (sep : String) (hsep : separatorOk sep = true) (i j : Nat) (v w : String)
    (h : Sprintf "%d%s%s" [.uint i, .str sep, .str v] =
      Sprintf "%d%s%s" [.uint j, .str sep, .str w]) : i = j ∧ v = w := by
  rw [Sprintf_key, Sprintf_key] at h
  have h2 := key_chars_inj sep hsep i j v.data w.data (String.ext_iff.mp h)
  exact ⟨h2.1, String.ext h2.2⟩

/-! ## The claims -/

/-- C1: the token stamped by the `Items` valuer on the copy of a loaded child,
and the token returned by the `CompositePrimaryKey` valuer of `ItemSelector`
for a row, is the decimal rendering of the identity, then the separator, then
the version name; with the separator `::`, identity 42 and version `v1` give
`42::v1`, and an empty version name gives the identity followed by the
separator alone. -/
theorem composite_key_token (k : Consts) (ctx ctx' : Context) (coll : Factory) (n : Nat)
    (r q : Item) (hload : (itemsLoad k ctx coll).2 = none)
    (hr : (itemsLoad k ctx coll).1.Items[n]? = some r) :
    (∃ res l p, ItemsValuer k (.factoryPtr coll) ctx = some res ∧ res.ret = .itemSlice l ∧
        l[n]? = some p ∧
        p.CompositePrimaryKey =
          Nat.repr r.ID ++ k.CompositePrimaryKeySeparator ++ r.GetVersionName) ∧
    ItemSelectorCompositePrimaryKeyValuer k (.itemPtr q) ctx' =
      .str (Nat.repr q.ID ++ k.CompositePrimaryKeySeparator ++ q.GetVersionName) ∧
    (k.CompositePrimaryKeySeparator = "::" → q.ID = 42 → q.GetVersionName = "v1" →
      ItemSelectorCompositePrimaryKeyValuer k (.itemPtr q) ctx' = .str "42::v1") ∧
    (q.GetVersionName = "" →
      ItemSelectorCompositePrimaryKeyValuer k (.itemPtr q) ctx' =
        .str (Nat.repr q.ID ++ k.CompositePrimaryKeySeparator)) := by
  have hsel : ItemSelectorCompositePrimaryKeyValuer k (.itemPtr q) ctx' =
      .str (Nat.repr q.ID ++ k.CompositePrimaryKeySeparator ++ q.GetVersionName) := by
    rw [selector_key, Sprintf_key_repr]
  refine ⟨?_, hsel, ?_, ?_⟩
  · refine ⟨_, _, stamped k r, ItemsValuer_loaded k ctx coll hload, rfl, ?_, ?_⟩
    · rw [List.getElem?_map, hr]; rfl
    · show Sprintf _ _ = _
      rw [Sprintf_key_repr]
  · intro hs hid hv
    rw [hsel, hs, hid, hv]
    decide
  · intro hv
    rw [hsel, hv]
    congr 1
    apply String.ext
    simp

/-- Instance of C1: a parent linked to the row of identity 42 and version `v1`,
separator `::`. -/
theorem composite_key_token_witness :
    (itemsLoad specConsts (ctxOf (storeWith [mkItem 42 "v1" "bolt"])) demoFactory).2 = none ∧
    (itemsLoad specConsts (ctxOf (storeWith [mkItem 42 "v1" "bolt"])) demoFactory).1.Items[0]? =
      some (mkItem 42 "v1" "bolt") ∧
    ItemSelectorCompositePrimaryKeyValuer specConsts (.itemPtr (mkItem 42 "v1" "bolt"))
      (ctxOf failingStore) = .str "42::v1" ∧
    ∃ res l p, ItemsValuer specConsts (.factoryPtr demoFactory)
        (ctxOf (storeWith [mkItem 42 "v1" "bolt"])) = some res ∧ res.ret = .itemSlice l ∧
      l[0]? = some p ∧ p.CompositePrimaryKey = "42::v1" := by
  have h := composite_key_token specConsts (ctxOf (storeWith [mkItem 42 "v1" "bolt"]))
    (ctxOf failingStore) demoFactory 0 (mkItem 42 "v1" "bolt") (mkItem 42 "v1" "bolt") rfl rfl
  refine ⟨rfl, rfl, h.2.2.1 rfl rfl rfl, ?_⟩
  obtain ⟨res, l, p, h1, h2, h3, h4⟩ := h.1
  exact ⟨res, l, p, h1, h2, h3, h4.trans (by decide)⟩

/-- C2: with the separator `::`, for rows whose version names do not contain
the separator, equal tokens force equal identities and equal version names, on
the selector valuer and on the stamping loop alike; and the decoder recovers
the identity and the version name (the empty one included) from the token. -/
theorem composite_key_roundtrip (k : Consts) (hk : k.CompositePrimaryKeySeparator = "::")
    (ctx ctx' : Context) (r r' : Item)
    (_hv : ¬ containsSeparator k.CompositePrimaryKeySeparator r.GetVersionName)
    (_hw : ¬ containsSeparator k.CompositePrimaryKeySeparator r'.GetVersionName) :
    (ItemSelectorCompositePrimaryKeyValuer k (.itemPtr r) ctx =
        ItemSelectorCompositePrimaryKeyValuer k (.itemPtr r') ctx' →
      r.ID = r'.ID ∧ r.GetVersionName = r'.GetVersionName) ∧
    ((stampLoop k [r] []).map (fun p => p.CompositePrimaryKey) =
        (stampLoop k [r'] []).map (fun p => p.CompositePrimaryKey) →
      r.ID = r'.ID ∧ r.GetVersionName = r'.GetVersionName) ∧
    (∃ token, ItemSelectorCompositePrimaryKeyValuer k (.itemPtr r) ctx = .str token ∧
      decode k.CompositePrimaryKeySeparator token = some (r.ID, r.GetVersionName)) ∧
    (∃ token, (stampLoop k [r] []).map (fun p => p.CompositePrimaryKey) = [token] ∧
      decode k.CompositePrimaryKeySeparator token = some (r.ID, r.GetVersionName)) := by
  have hsep : separatorOk k.CompositePrimaryKeySeparator = true := by rw [hk]; decide
  refine ⟨?_, ?_, ?_, ?_⟩
  · intro h
    rw [selector_key, selector_key] at h
    exact token_inj _ hsep _ _ _ _ (Value.str.inj h)
  · intro h
    simp only [stampLoop_eq, stamped, List.map_cons, List.map_nil, List.nil_append,
      List.cons.injEq, and_true] at h
    exact token_inj _ hsep _ _ _ _ h
  · exact ⟨_, selector_key k ctx r, decode_key _ hsep _ _⟩
  · refine ⟨_, ?_, decode_key _ hsep r.ID r.GetVersionName⟩
    simp [stampLoop_eq, stamped]

/-- Instance of C2: two rows of identity 42 with the empty version name. -/
theorem composite_key_roundtrip_witness :
    ¬ containsSeparator "::" "" ∧
    ∃ token, ItemSelectorCompositePrimaryKeyValuer specConsts (.itemPtr (mkItem 42 "" "bolt"))
        (ctxOf failingStore) = .str token ∧
      decode "::" token = some (42, "") :=
  ⟨by decide,
    (composite_key_roundtrip specConsts rfl (ctxOf failingStore) (ctxOf failingStore)
      (mkItem 42 "" "bolt") (mkItem 42 "" "nut") (by decide) (by decide)).2.2.1⟩

/-- C8, as stated, fails: with the separator `::` no two different pairs of
identity and version name receive the same token, whatever the version names
contain. -/
theorem separator_in_version_name_no_collision :
    ¬ ∃ (k : Consts) (ctx ctx' : Context) (r r' : Item),
      k.CompositePrimaryKeySeparator = "::" ∧
      (r.ID, r.GetVersionName) ≠ (r'.ID, r'.GetVersionName) ∧
      ItemSelectorCompositePrimaryKeyValuer k (.itemPtr r) ctx =
        ItemSelectorCompositePrimaryKeyValuer k (.itemPtr r') ctx' := by
  rintro ⟨k, ctx, ctx', r, r', hk, hne, h⟩
  have hsep : separatorOk k.CompositePrimaryKeySeparator = true := by rw [hk]; decide
  rw [selector_key, selector_key] at h
  have h2 := token_inj _ hsep _ _ _ _ (Value.str.inj h)
  exact hne (Prod.ext h2.1 h2.2)

/-- C8, amended: when the separator is not empty and does not start with a
decimal digit, the token construction is injective on all pairs of identity
and version name, version names containing the separator included. -/
theorem composite_key_injective (k : Consts)
    (hsep : separatorOk k.CompositePrimaryKeySeparator = true) (ctx ctx' : Context)
    (r r' : Item)
    (h : ItemSelectorCompositePrimaryKeyValuer k (.itemPtr r) ctx =
      ItemSelectorCompositePrimaryKeyValuer k (.itemPtr r') ctx') :
    r.ID = r'.ID ∧ r.GetVersionName = r'.GetVersionName ∧
    (stamped k r).CompositePrimaryKey = (stamped k r').CompositePrimaryKey := by
  rw [selector_key, selector_key] at h
  have h2 := token_inj _ hsep _ _ _ _ (Value.str.inj h)
  exact ⟨h2.1, h2.2, Value.str.inj h⟩

/-- Instance of the amended C8: two rows of identity 7 whose version name
`a::b` contains the separator `::`. -/
theorem composite_key_injective_witness :
    separatorOk "::" = true ∧ containsSeparator "::" "a::b" ∧
    (mkItem 7 "a::b" "bolt").ID = (mkItem 7 "a::b" "nut").ID ∧
    (mkItem 7 "a::b" "bolt").GetVersionName = (mkItem 7 "a::b" "nut").GetVersionName :=
  have h := composite_key_injective specConsts (by decide) (ctxOf failingStore)
    (ctxOf (storeWith [])) (mkItem 7 "a::b" "bolt") (mkItem 7 "a::b" "nut") rfl
  ⟨by decide, by decide, h.1, h.2.1⟩

/-- C3: for every row loaded for a parent, the key stamped on its copy by the
`Items` valuer is the string the `CompositePrimaryKey` valuer of `ItemSelector`
returns for that row, under any context; and a row of the same identity and
version name gets the same key from the selector and from the `Items` valuer of
any other parent under any other context. -/
theorem identity_agreement (k : Consts) (ctx ctx' ctx'' : Context) (coll : Factory) (n : Nat)
    (r r' : Item) (hload : (itemsLoad k ctx coll).2 = none)
    (hr : (itemsLoad k ctx coll).1.Items[n]? = some r)
    (hid : r.ID = r'.ID) (hver : r.GetVersionName = r'.GetVersionName) :
    (∃ res l p, ItemsValuer k (.factoryPtr coll) ctx = some res ∧ res.ret = .itemSlice l ∧
        l[n]? = some p ∧
        Value.str p.CompositePrimaryKey =
          ItemSelectorCompositePrimaryKeyValuer k (.itemPtr r) ctx') ∧
    ItemSelectorCompositePrimaryKeyValuer k (.itemPtr r) ctx' =
      ItemSelectorCompositePrimaryKeyValuer k (.itemPtr r') ctx'' ∧
    (∀ (ctx₂ : Context) (coll₂ : Factory) (m : Nat), (itemsLoad k ctx₂ coll₂).2 = none →
      (itemsLoad k ctx₂ coll₂).1.Items[m]? = some r' →
      ∃ res l p, ItemsValuer k (.factoryPtr coll₂) ctx₂ = some res ∧ res.ret = .itemSlice l ∧
        l[m]? = some p ∧
        Value.str p.CompositePrimaryKey =
          ItemSelectorCompositePrimaryKeyValuer k (.itemPtr r) ctx') := by
  refine ⟨?_, ?_, ?_⟩
  · refine ⟨_, _, stamped k r, ItemsValuer_loaded k ctx coll hload, rfl, ?_, rfl⟩
    rw [List.getElem?_map, hr]; rfl
  · rw [selector_key, selector_key, hid, hver]
  · intro ctx₂ coll₂ m hload₂ hr₂
    refine ⟨_, _, stamped k r', ItemsValuer_loaded k ctx₂ coll₂ hload₂, rfl, ?_, ?_⟩
    · rw [List.getElem?_map, hr₂]; rfl
    · rw [selector_key, hid, hver]; rfl

/-- Instance of C3: the row of identity 9 is the second child of one parent and
the only child of another, with different names. -/
theorem identity_agreement_witness :
    (itemsLoad specConsts (ctxOf (storeWith [mkItem 7 "" "bolt", mkItem 9 "v2" "nut"]))
      demoFactory).2 = none ∧
    (itemsLoad specConsts (ctxOf (storeWith [mkItem 7 "" "bolt", mkItem 9 "v2" "nut"]))
      demoFactory).1.Items[1]? = some (mkItem 9 "v2" "nut") ∧
    ItemSelectorCompositePrimaryKeyValuer specConsts (.itemPtr (mkItem 9 "v2" "nut"))
        (ctxOf failingStore) =
      ItemSelectorCompositePrimaryKeyValuer specConsts (.itemPtr (mkItem 9 "v2" "washer"))
        (ctxOf (storeWith [])) :=
  ⟨rfl, rfl,
    (identity_agreement specConsts (ctxOf (storeWith [mkItem 7 "" "bolt", mkItem 9 "v2" "nut"]))
      (ctxOf failingStore) (ctxOf (storeWith [])) demoFactory 1 (mkItem 9 "v2" "nut")
      (mkItem 9 "v2" "washer") rfl rfl rfl rfl).2.1⟩

/-- C5: after a successful load the `Items` valuer returns one item per loaded
child, in the order of the loaded list, each carrying the token of that
child's identity and version name and that child's name. -/
theorem items_valuer_selections (k : Consts) (ctx : Context) (coll : Factory)
    (hload : (itemsLoad k ctx coll).2 = none) :
    ∃ res l, ItemsValuer k (.factoryPtr coll) ctx = some res ∧ res.ret = .itemSlice l ∧
      l.length = (itemsLoad k ctx coll).1.Items.length ∧
      l.map (fun p => (p.CompositePrimaryKey, p.Name)) =
        (itemsLoad k ctx coll).1.Items.map (fun r =>
          (Nat.repr r.ID ++ k.CompositePrimaryKeySeparator ++ r.GetVersionName, r.Name)) := by
  refine ⟨_, _, ItemsValuer_loaded k ctx coll hload, rfl, by simp, ?_⟩
  rw [List.map_map]
  apply List.map_congr_left
  intro r _
  show (Sprintf _ _, _) = _
  rw [Sprintf_key_repr]
  rfl

/-- Instance of C5: the children of identities 7 and 9, both of the empty
version, with the separator `::`, give the tokens `7::` then `9::`. -/
theorem items_valuer_selections_witness :
    (itemsLoad specConsts (ctxOf (storeWith [mkItem 7 "" "bolt", mkItem 9 "" "nut"]))
      demoFactory).2 = none ∧
    ∃ res l, ItemsValuer specConsts (.factoryPtr demoFactory)
        (ctxOf (storeWith [mkItem 7 "" "bolt", mkItem 9 "" "nut"])) = some res ∧
      res.ret = .itemSlice l ∧
      l.map (fun p => (p.CompositePrimaryKey, p.Name)) = [("7::", "bolt"), ("9::", "nut")] := by
  obtain ⟨res, l, h1, h2, _, h4⟩ := items_valuer_selections specConsts
    (ctxOf (storeWith [mkItem 7 "" "bolt", mkItem 9 "" "nut"])) demoFactory rfl
  exact ⟨rfl, res, l, h1, h2, h4.trans (by decide)⟩

/-- C9: after a successful load every returned item agrees with the element of
the parent's item list at the same position in every field other than
`CompositePrimaryKey`, and the record behind the parent pointer is the loaded
one: the loop wrote to the copies only. -/
theorem items_valuer_stamps_copies (k : Consts) (ctx : Context) (coll : Factory)
    (hload : (itemsLoad k ctx coll).2 = none) :
    ∃ res l, ItemsValuer k (.factoryPtr coll) ctx = some res ∧ res.ret = .itemSlice l ∧
      res.coll = (itemsLoad k ctx coll).1 ∧
      l.length = res.coll.Items.length ∧
      ∀ (n : Nat) (p r : Item), l[n]? = some p → res.coll.Items[n]? = some r →
        p.toModel = r.toModel ∧ p.toVersion = r.toVersion ∧ p.Name = r.Name ∧
        p.IDVersion = r.IDVersion ∧
        { p with CompositePrimaryKey := r.CompositePrimaryKey } = r := by
  refine ⟨_, _, ItemsValuer_loaded k ctx coll hload, rfl, rfl, by simp, ?_⟩
  intro n p r hp hr
  simp only [] at hr
  rw [List.getElem?_map, hr] at hp
  simp only [Option.map_some', Option.some.injEq] at hp
  subst hp
  exact ⟨rfl, rfl, rfl, rfl, rfl⟩

/-- Instance of C9: the loaded child keeps its empty key while its copy carries
the token. -/
theorem items_valuer_stamps_copies_witness :
    (itemsLoad specConsts (ctxOf (storeWith [mkItem 7 "" "bolt"])) demoFactory).2 = none ∧
    ∃ res l, ItemsValuer specConsts (.factoryPtr demoFactory)
        (ctxOf (storeWith [mkItem 7 "" "bolt"])) = some res ∧
      res.ret = .itemSlice l ∧ res.coll.Items = [mkItem 7 "" "bolt"] ∧
      l.length = 1 := by
  obtain ⟨res, l, h1, h2, h3, h4, _⟩ := items_valuer_stamps_copies specConsts
    (ctxOf (storeWith [mkItem 7 "" "bolt"])) demoFactory rfl
  refine ⟨rfl, res, l, h1, h2, ?_, ?_⟩
  · rw [h3]; rfl
  · rw [h4, h3]; rfl

/-- C4, on the code: the value of the collection entry of a row is the key
stamped on that row exactly when the separator is `---`; with the separator
`::` the row of identity 7 and empty version gets the value `7---` from the
collection function and the key `7::` from the `Items` valuer. -/
theorem collection_value_differs_from_key :
    (∀ (k : Consts) (r : Item),
      ((collectLoop [r] []).map (fun entry => entry.head?) =
          (stampLoop k [r] []).map (fun p => some p.CompositePrimaryKey) ↔
        k.CompositePrimaryKeySeparator = "---")) ∧
    (ItemsCollection (.factoryPtr demoFactory) (ctxOf (storeWith [mkItem 7 "" "bolt"]))).1 =
      [["7---", "bolt"]] ∧
    (ItemsValuer specConsts (.factoryPtr demoFactory)
        (ctxOf (storeWith [mkItem 7 "" "bolt"]))).map (fun res => res.ret) =
      some (.itemSlice [{ mkItem 7 "" "bolt" with CompositePrimaryKey := "7::" }]) := by
  refine ⟨?_, ?_, ?_⟩
  · intro k r
    simp only [collectLoop_eq, stampLoop_eq, stamped, List.map_cons, List.map_nil,
      List.nil_append, List.head?_cons, List.cons.injEq, and_true, Option.some.injEq,
      Sprintf_key, Sprintf_pair]
    constructor
    · intro h
      have h1 : fmtInteger r.ID [] ++ (['-', '-', '-'] ++ r.GetVersionName.data) =
          fmtInteger r.ID [] ++ (k.CompositePrimaryKeySeparator.data ++ r.GetVersionName.data) :=
        String.ext_iff.mp h
      exact String.ext (List.append_cancel_right (List.append_cancel_left h1)).symm
    · intro h
      rw [h]
      rfl
  · simp only [ItemsCollection, collectLoop_eq, Sprintf_pair_repr]
    decide
  · rw [ItemsValuer_loaded specConsts (ctxOf (storeWith [mkItem 7 "" "bolt"])) demoFactory rfl]
    show some (Value.itemSlice [stamped specConsts (mkItem 7 "" "bolt")]) = _
    simp only [stamped, Sprintf_key_repr]
    decide

/-- C6, as stated, fails: for the parent `demoFactory` the collection function
returns the same empty list when the read fails and when the read succeeds
with no related item. -/
theorem collection_failure_looks_empty :
    (relatedRead (ctxOf failingStore) demoFactory).2 = some ⟨"store unavailable"⟩ ∧
    relatedRead (ctxOf (storeWith [])) demoFactory = ([], none) ∧
    ItemsCollection (.factoryPtr demoFactory) (ctxOf failingStore) =
      ItemsCollection (.factoryPtr demoFactory) (ctxOf (storeWith [])) ∧
    (ItemsCollection (.factoryPtr demoFactory) (ctxOf failingStore)).1 = [] := by
  decide

/-- C6, amended: the collection function does not inspect the error of the
read; its result is a function of the rows the read left in the list, so two
reads leaving the same rows give the same result whatever their errors, and a
read leaving no row gives the empty list. -/
theorem collection_ignores_read_error (ctx ctx' : Context) (c c' : Factory)
    (hrows : (relatedRead ctx c).1 = (relatedRead ctx' c').1) :
    (ItemsCollection (.factoryPtr c) ctx).1 = (ItemsCollection (.factoryPtr c') ctx').1 ∧
    ((relatedRead ctx c).1 = [] → (ItemsCollection (.factoryPtr c) ctx).1 = []) := by
  have h1 : ∀ (x : Context) (f : Factory),
      (ItemsCollection (.factoryPtr f) x).1 = collectLoop (relatedRead x f).1 [] :=
    fun _ _ => rfl
  refine ⟨by rw [h1, h1, hrows], ?_⟩
  intro h
  rw [h1, h]
  rfl

/-- Instance of the amended C6: a failed read and a successful read, both
leaving no row. -/
theorem collection_ignores_read_error_witness :
    (relatedRead (ctxOf failingStore) demoFactory).1 =
      (relatedRead (ctxOf (storeWith [])) demoFactory).1 ∧
    (relatedRead (ctxOf failingStore) demoFactory).2 ≠
      (relatedRead (ctxOf (storeWith [])) demoFactory).2 ∧
    (ItemsCollection (.factoryPtr demoFactory) (ctxOf failingStore)).1 =
      (ItemsCollection (.factoryPtr demoFactory) (ctxOf (storeWith []))).1 :=
  ⟨rfl, by decide,
    (collection_ignores_read_error (ctxOf failingStore) (ctxOf (storeWith [])) demoFactory
      demoFactory rfl).1⟩

/-- C7, as stated, fails: when the load fails the `Items` valuer returns the
empty string, which is not an error value. -/
theorem items_valuer_failure_returns_string :
    (itemsLoad specConsts (ctxOf failingStore) demoFactory).2 = some ⟨"store unavailable"⟩ ∧
    (ItemsValuer specConsts (.factoryPtr demoFactory) (ctxOf failingStore)).map
      (fun res => res.ret) = some (.str "") ∧
    ∀ e, (ItemsValuer specConsts (.factoryPtr demoFactory) (ctxOf failingStore)).map
      (fun res => res.ret) ≠ some (.error e) := by
  refine ⟨rfl, rfl, ?_⟩
  intro e h
  have h2 : (ItemsValuer specConsts (.factoryPtr demoFactory) (ctxOf failingStore)).map
      (fun res => res.ret) = some (.str "") := rfl
  rw [h2] at h
  cases h

/-- C7, amended: when the load fails the `Items` valuer returns the empty
string; no error value is returned, and the result differs from every item
list, in particular from the result of any successful load. -/
theorem items_valuer_failure (k : Consts) (ctx ctx' : Context) (coll coll' : Factory)
    (e : DBError) (hfail : (itemsLoad k ctx coll).2 = some e) :
    ∃ res, ItemsValuer k (.factoryPtr coll) ctx = some res ∧ res.ret = .str "" ∧
      (∀ e', res.ret ≠ .error e') ∧ (∀ l, res.ret ≠ .itemSlice l) ∧
      ((itemsLoad k ctx' coll').2 = none →
        ∃ res', ItemsValuer k (.factoryPtr coll') ctx' = some res' ∧ res'.ret ≠ res.ret) := by
  refine ⟨_, ItemsValuer_failed k ctx coll e hfail, rfl, ?_, ?_, ?_⟩
  · intro e' h; cases h
  · intro l h; cases h
  · intro hok
    refine ⟨_, ItemsValuer_loaded k ctx' coll' hok, ?_⟩
    intro h; cases h

/-- Instance of the amended C7: the failing store against a store in which the
parent has no item. -/
theorem items_valuer_failure_witness :
    (itemsLoad specConsts (ctxOf failingStore) demoFactory).2 = some ⟨"store unavailable"⟩ ∧
    (itemsLoad specConsts (ctxOf (storeWith [])) demoFactory).2 = none ∧
    ∃ res, ItemsValuer specConsts (.factoryPtr demoFactory) (ctxOf failingStore) = some res ∧
      res.ret = .str "" ∧
      ∃ res', ItemsValuer specConsts (.factoryPtr demoFactory) (ctxOf (storeWith [])) =
        some res' ∧ res'.ret ≠ res.ret := by
  obtain ⟨res, h1, h2, _, _, h5⟩ := items_valuer_failure specConsts (ctxOf failingStore)
    (ctxOf (storeWith [])) demoFactory demoFactory ⟨"store unavailable"⟩ rfl
  exact ⟨rfl, rfl, res, h1, h2, h5 rfl⟩

/-- C10: for a `*Factory` value the collection function returns one entry
`[value, label]` per row of the read, in the order of the read, with the
item's name as label, after exactly one read; for any other value it returns
the empty list and issues no read.  The `Name` and `CompositePrimaryKey`
valuers of `ItemSelector` return the empty string for a value that is not an
`*Item`. -/
theorem items_collection_reference (k : Consts) (ctx : Context) (value : Value) :
    (∀ c, value = .factoryPtr c →
      ItemsCollection value ctx =
        ((relatedRead ctx c).1.map (fun it =>
            [Nat.repr it.ID ++ "---" ++ it.GetVersionName, it.Name]),
          [.related ctx.DB.values c "Items"])) ∧
    ((∀ c, value ≠ .factoryPtr c) → ItemsCollection value ctx = ([], [])) ∧
    ((∀ r, value ≠ .itemPtr r) →
      ItemSelectorNameValuer value ctx = .str "" ∧
      ItemSelectorCompositePrimaryKeyValuer k value ctx = .str "") ∧
    (∀ r, value = .itemPtr r → ItemSelectorNameValuer value ctx = .str r.Name) := by
  refine ⟨?_, ?_, ?_, ?_⟩
  · intro c hc
    subst hc
    simp only [ItemsCollection, collectLoop_eq, List.nil_append, Sprintf_pair_repr]
    rfl
  · intro h
    cases value with
    | factoryPtr c => exact absurd rfl (h c)
    | _ => rfl
  · intro h
    cases value with
    | itemPtr r => exact absurd rfl (h r)
    | _ => exact ⟨rfl, rfl⟩
  · intro r hr
    subst hr
    rfl

/-- Instance of C10: a string value reaches the collection function and the
two selector valuers. -/
theorem items_collection_reference_witness :
    (∀ c, Value.str "x" ≠ .factoryPtr c) ∧ (∀ r, Value.str "x" ≠ .itemPtr r) ∧
    ItemsCollection (.str "x") (ctxOf (storeWith [mkItem 7 "" "bolt"])) = ([], []) ∧
    ItemSelectorNameValuer (.str "x") (ctxOf failingStore) = .str "" ∧
    ItemSelectorCompositePrimaryKeyValuer specConsts (.str "x") (ctxOf failingStore) =
      .str "" :=
  have h := items_collection_reference specConsts (ctxOf (storeWith [mkItem 7 "" "bolt"]))
    (.str "x")
  have h' := items_collection_reference specConsts (ctxOf failingStore) (.str "x")
  ⟨(fun _ e => nomatch e), (fun _ e => nomatch e), h.2.1 (fun _ e => nomatch e),
    (h'.2.2.1 (fun _ e => nomatch e)).1, (h'.2.2.1 (fun _ e => nomatch e)).2⟩

end QorExample
